import Mathlib

/-!
Verification development for the USB device-side enumeration engine of
libhal-util (`src/include/libhal-util/usb/*` — the legacy variant — and
`src/v5/include/libhal-util/usb/*` — the v5 variant).

Bytes and 16-bit words are modelled as `Nat` with explicit `% 256` /
`% 65536` at every point where the C++ stores into a `u8` / `u16` field.
UTF-16 strings (`std::u16string_view`) are modelled as lists of code
units (`Nat`). Scatter spans are lists of byte lists. Endpoint activity
is modelled as an explicit event trace; `safe_throw` is modelled by an
`Option UsbError` component of each step result.
-/

namespace LibhalUsb

/-- Error conditions raised via `safe_throw` (and `std::array::at`). -/
inductive UsbError
  | argumentOutOfDomain
  | operationNotPermitted
  | messageSize
  | notConnected
  | operationNotSupported
  | genericException
  | outOfRange
  deriving DecidableEq, Repr

/-- Observable operations performed on the control endpoint, in order.
`write []` is the zero-length packet. `setAddress` carries the byte
passed to the endpoint (the contract takes a `u8`, so a `u16` argument
is narrowed to its low byte). `ifaceRequestQuery` records one
`handle_request` consultation of an interface. -/
inductive Event
  | write (bytes : List Nat)
  | setAddress (addr : Nat)
  | connect (enabled : Bool)
  | ifaceRequestQuery
  deriving DecidableEq, Repr

/-- Type field of `bmRequestType` (bits D6-5). -/
inductive ReqKind
  | standard
  | classKind
  | vendor
  | reserved
  deriving DecidableEq, Repr

/-- Recipient field of `bmRequestType` (bits D4-0). -/
inductive ReqRecipient
  | device
  | iface
  | endpoint
  | other
  deriving DecidableEq, Repr

/-- Decoded 8-byte setup packet: `bmRequestType` split into its three
bit groups, plus `bRequest`, `wValue`, `wIndex`, `wLength`. -/
structure SetupRequest where
  deviceToHost : Bool
  kind : ReqKind
  recipient : ReqRecipient
  request : Nat
  value : Nat
  index : Nat
  length : Nat
  deriving DecidableEq, Repr

/-- Numeric value of `standard_request_types::invalid`: the enumerator
after `synch_frame = 0x12`, so `0x13`. -/
def invalidRequestCode : Nat := 0x13

/-- The request codes that have a named enumerator in
`setup_request::standard_request_types` (src/include/libhal-util/usb/utils.hpp). -/
def namedStandardCodes : List Nat :=
  [0x00, 0x01, 0x03, 0x05, 0x06, 0x07, 0x08, 0x09, 0x0A, 0x11, 0x12]

/-- Shallow embedding of `setup_request::get_standard_request`
(src/include/libhal-util/usb/utils.hpp lines 131-139): the result is the
numeric value of the returned `standard_request_types`. When none of the
guard conditions hold, the C++ returns
`static_cast<standard_request_types>(request)`, i.e. the raw request
code reinterpreted as the enum type. -/
def getStandardRequest (r : SetupRequest) : Nat :=
  if r.kind ≠ ReqKind.standard ∨ r.request = 0x04 ∨ r.request > 0x12 then
    invalidRequestCode
  else
    r.request

/-- Sum of the lengths of the component spans of a scatter span
(`scatter_span_size`, identical in both variants). -/
def scatterSpanSize (ss : List (List Nat)) : Nat :=
  ss.foldl (fun acc s => acc + s.length) 0

theorem scatterSpanSize_nil : scatterSpanSize [] = 0 := rfl

theorem scatterSpanSize_cons (s : List Nat) (rest : List (List Nat)) :
    scatterSpanSize (s :: rest) = s.length + scatterSpanSize rest := by
  show List.foldl _ (0 + s.length) rest = _
  have h : ∀ (l : List (List Nat)) (a : Nat),
      List.foldl (fun acc t => acc + t.length) a l =
        a + List.foldl (fun acc t => acc + t.length) 0 l := by
    intro l
    induction l with
    | nil => intro a; simp
    | cons x xs ih =>
      intro a
      show List.foldl _ (a + x.length) xs = a + List.foldl _ (0 + x.length) xs
      rw [ih (a + x.length), ih (0 + x.length)]
      omega
  rw [h rest (0 + s.length)]
  unfold scatterSpanSize
  omega

/-- Loop of `make_sub_scatter_array`
(src/v5/include/libhal-util/usb/enumerator.hpp lines 125-146), entered
only when the total length exceeds `p_count`. Returns the spans included
so far and the count contribution; the nil case mirrors the
post-loop `return {res, i + 1}` (unreachable under the entry condition).
In the C++ the result array keeps default-constructed (empty) spans past
`count`; here only the first `count` spans are materialised. -/
def subScatterLoop (pcount : Nat) (cur : Nat) :
    List (List Nat) → List (List Nat) × Nat
  | [] => ([], 1)
  | s :: rest =>
    if pcount ≥ cur + s.length then
      let r := subScatterLoop pcount (cur + s.length) rest
      (s :: r.1, r.2 + 1)
    else if cur ≥ pcount then
      ([], 0)
    else
      ([s.take (pcount - cur)], 1)

/-- Shallow embedding of `make_sub_scatter_array` /
`make_sub_scatter_bytes` (src/v5/include/libhal-util/usb/enumerator.hpp
lines 110-159): returns the span array and the number of valid spans. -/
def makeSubScatterBytes (pcount : Nat) (spans : List (List Nat)) :
    List (List Nat) × Nat :=
  if scatterSpanSize spans ≤ pcount then
    (spans, spans.length)
  else
    subScatterLoop pcount 0 spans

/-- Little-endian bytes of a 16-bit value (`to_le_bytes` in
src/include/libhal-util/usb/utils.hpp; `setup_packet::to_le_u16` of
libhal behaves identically per spec §4.1 "pack/unpack a 16-bit value
to/from two little-endian bytes"). -/
def le16 (n : Nat) : List Nat := [n % 256, n / 256 % 256]

/-- Byte expansion of a UTF-16 string view as performed by
`hal::as_bytes` on a `std::u16string_view` (char16_t elements, two bytes
each, little-endian host). -/
def u16leBytes (units : List Nat) : List Nat :=
  units.foldr (fun u acc => u % 256 :: u / 256 % 256 :: acc) []

/-- Modelled from the spec: the v5 `interface` contract lives in libhal
(`<libhal/usb.hpp>`), not under src/. Per spec §3: `write_descriptors`
receives the next free interface/string indices (or none when only
probing) and returns index deltas while emitting scatter spans through a
callback; `write_string_descriptor` emits the UTF-16LE string descriptor
through the writer and returns whether the index belongs to it;
`handle_request` returns whether it serviced the request, emitting
response bytes. Each emitting call is modelled as invoking its writer
once per scatter span in the returned list. -/
structure IfaceV5 where
  writeDesc : Option Nat → Option Nat → (Nat × Nat) × List (List (List Nat))
  writeStrDesc : Nat → Option (List (List Nat))
  handleReq : SetupRequest → Bool × List (List Nat)
  deriving Inhabited

/-- State of a v5 `configuration`: its immutable info plus the fields of
the 7-byte packed header that the enumerator mutates
(src/v5/include/libhal-util/usb/descriptors.hpp). -/
structure ConfigV5 where
  name : List Nat
  interfaces : List IfaceV5
  totalLength : Nat
  numInterfaces : Nat
  configValue : Nat
  configIndex : Nat
  attributes : Nat
  maxPower : Nat
  deriving Inhabited

/-- The 7-byte packed array of a v5 configuration in wire order. -/
def configV5Packed (c : ConfigV5) : List Nat :=
  le16 c.totalLength ++
    [c.numInterfaces % 256, c.configValue % 256, c.configIndex % 256,
     c.attributes % 256, c.maxPower % 256]

/-- Constructor arguments of `device` (both variants share this bundle). -/
structure DeviceArgs where
  bcdUsb : Nat
  deviceClass : Nat
  deviceSubclass : Nat
  deviceProtocol : Nat
  idVendor : Nat
  idProduct : Nat
  bcdDevice : Nat
  manufacturer : List Nat
  product : List Nat
  serialNumber : List Nat
  deriving Inhabited

/-- The 16-byte packed array produced by the v5 `device::device`
constructor (src/v5/include/libhal-util/usb/descriptors.hpp lines
59-97): bcdUSB (LE), class, subclass, protocol, max-packet placeholder
0, idVendor (LE), idProduct (LE), bcdDevice (LE), default string indices
1/2/3, configuration-count placeholder 0. -/
def deviceV5InitArr (a : DeviceArgs) : List Nat :=
  le16 a.bcdUsb ++
    [a.deviceClass % 256, a.deviceSubclass % 256, a.deviceProtocol % 256, 0] ++
    le16 a.idVendor ++ le16 a.idProduct ++ le16 a.bcdDevice ++ [1, 2, 3, 0]

/-- State of a v5 `device`: packed array plus the owned string views. -/
structure DeviceV5 where
  packed : List Nat
  manufacturerStr : List Nat
  productStr : List Nat
  serialNumberStr : List Nat
  deriving Inhabited

def DeviceV5.setMaxPacketSize (d : DeviceV5) (s : Nat) : DeviceV5 :=
  { d with packed := d.packed.set 5 (s % 256) }

def DeviceV5.setNumConfigurations (d : DeviceV5) (n : Nat) : DeviceV5 :=
  { d with packed := d.packed.set 15 (n % 256) }

/-- State of the v5 `enumerator` (src/v5/include/libhal-util/usb/
enumerator.hpp lines 586-593). `activeConf` is the index of the
configuration the active-configuration pointer refers to; `epMaxPacket`
is the externally supplied `info().size` of the control endpoint. -/
structure EnumStateV5 where
  device : DeviceV5
  configs : List ConfigV5
  langStr : Nat
  epMaxPacket : Nat
  ifaceForStrDesc : Option (Nat × IfaceV5)
  activeConf : Option Nat
  hasSetupPacket : Bool
  deriving Inhabited

/-- Result of one modelled control-flow step: the state afterwards, the
endpoint events emitted before returning or throwing, and the
`safe_throw`n error if any. -/
structure StepResult (σ : Type) where
  state : σ
  events : List Event
  err : Option UsbError

/-- Inner interface walk of `enumerate()`'s total-length pass
(src/v5/include/libhal-util/usb/enumerator.hpp lines 209-218): threads
the running interface/string index counters (u8, wrapping) and the
running `total_length` (u16, wrapping, incremented once per emitted
scatter span). Returns (interface counter, string counter, total). -/
def walkIfacesV5 (ci cs total : Nat) : List IfaceV5 → Nat × Nat × Nat
  | [] => (ci, cs, total)
  | f :: rest =>
    let r := f.writeDesc (some ci) (some cs)
    let t := r.2.foldl (fun a sp => (a + scatterSpanSize sp) % 65536) total
    walkIfacesV5 ((ci + r.1.1) % 256) ((cs + r.1.2) % 256) t rest

/-- Second preparation loop of v5 `enumerate()` (lines 206-221): per
configuration, recompute `total_length` starting from the 9-byte header
and store the cumulative interface counter into `num_interfaces`. -/
def prepTotalsV5 (ci cs : Nat) : List ConfigV5 → List ConfigV5
  | [] => []
  | c :: rest =>
    let w := walkIfacesV5 ci cs 9 c.interfaces
    { c with numInterfaces := w.1 % 256, totalLength := w.2.2 } ::
      prepTotalsV5 w.1 w.2.1 rest

/-- First preparation loop of v5 `enumerate()` (lines 200-204): config
`i` receives string index `cur_str_idx++` (u8, wrapping) and
configuration value `i + 1` (stored into a u8 field). Returns the
updated configurations and the final string counter. -/
def assignCfgMetaV5 (cur ival : Nat) : List ConfigV5 → List ConfigV5 × Nat
  | [] => ([], cur)
  | c :: rest =>
    let r := assignCfgMetaV5 ((cur + 1) % 256) (ival + 1) rest
    ({ c with configIndex := cur % 256, configValue := (ival + 1) % 256 } :: r.1,
      r.2)

/-- Phase one of v5 `enumerate()` (lines 182-221): reset the active
configuration and disconnect when re-enumerating, fill the device's
configuration count, assign configuration string indices (from 4) and
1-based configuration values, then recompute the totals. -/
def prepPhaseV5 (st : EnumStateV5) : EnumStateV5 × List Event :=
  let reset := if st.activeConf ≠ none then
      ({ st with activeConf := none }, [Event.connect false])
    else (st, [])
  let st0 := reset.1
  let dev := st0.device.setNumConfigurations st0.configs.length
  let meta := assignCfgMetaV5 4 0 st0.configs
  let cfgs2 := prepTotalsV5 0 meta.2 meta.1
  ({ st0 with device := dev, configs := cfgs2 }, reset.2)

/-- Final values of the interface/string counters after one
configuration's interface walk (used to phrase the per-pass emissions). -/
def threadV5 (ci cs : Nat) : List IfaceV5 → Nat × Nat
  | [] => (ci, cs)
  | f :: rest =>
    let r := f.writeDesc (some ci) (some cs)
    threadV5 ((ci + r.1.1) % 256) ((cs + r.1.2) % 256) rest

/-- Sizes (`scatter_span_size`) of every byte span emitted through the
`write_descriptors` callback by the interfaces of one configuration
during the preparation pass, in emission order. This is the spec-side
quantity of the round-trip total-length property (spec §8). -/
def specEmittedSizesV5 (ci cs : Nat) : List IfaceV5 → List Nat
  | [] => []
  | f :: rest =>
    let r := f.writeDesc (some ci) (some cs)
    r.2.map scatterSpanSize ++
      specEmittedSizesV5 ((ci + r.1.1) % 256) ((cs + r.1.2) % 256) rest

/-- Per-configuration emitted span sizes across a whole preparation
pass, threading the index counters exactly as the pass does. -/
def specPassEmissionsV5 (ci cs : Nat) : List (List IfaceV5) → List (List Nat)
  | [] => []
  | ifs :: rest =>
    let w := threadV5 ci cs ifs
    specEmittedSizesV5 ci cs ifs :: specPassEmissionsV5 w.1 w.2 rest

/-- Modelled from the spec: libhal's `determine_standard_request`
classifier for v5 `setup_packet`s is not under src/; per spec §4.1 a
request is standard only if the type bits indicate standard and the
request code is one of the defined standard codes, anything else
classifying as invalid. -/
def determineStandardRequest (r : SetupRequest) : Nat :=
  if r.kind = ReqKind.standard ∧ r.request ∈ namedStandardCodes then r.request
  else invalidRequestCode

/-- Events of the interface descriptor chain walk in the configuration
branch of v5 `process_get_descriptor` (lines 420-427): each emitted
scatter span is written to the endpoint. -/
def ifaceChainEventsV5 (ifs : List IfaceV5) : List Event :=
  ifs.flatMap fun f =>
    ((f.writeDesc none none).2).map fun sp => Event.write sp.flatten

/-- Single-match lookup of `write_cfg_str_descriptor` (v5, lines
521-584): device strings at fixed indices 1-3, configuration names from
index 4; the configuration loop does not break, so a later match would
overwrite an earlier one (indices are distinct, so at most one matches).
Returns `none` when nothing matches (the C++ returns `false`). -/
def writeCfgStrDescriptorV5 (st : EnumStateV5) (targetIdx pLen : Nat) :
    Option (List Event) :=
  let optSv :=
    if targetIdx = 1 then some st.device.manufacturerStr
    else if targetIdx = 2 then some st.device.productStr
    else if targetIdx = 3 then some st.device.serialNumberStr
    else
      st.configs.enum.foldl
        (fun acc ic => if targetIdx = 4 + ic.1 then some ic.2.name else acc)
        none
  match optSv with
  | none => none
  | some sv =>
    let bytes := u16leBytes sv
    let descLen := (bytes.length + 2) % 256
    let sub := makeSubScatterBytes pLen [[descLen, 3], bytes]
    some [Event.write (sub.1.take sub.2).flatten, Event.write []]

/-- Writer closure used while scanning interfaces for a string index
(v5 `handle_str_descriptors`, lines 490-500): the full descriptor when
more than two bytes were requested, otherwise just the length byte and
the string descriptor type, each followed by a flush ZLP. -/
def strScanWriterV5 (pLen : Nat) (desc : List (List Nat)) : List Event :=
  if pLen > 2 then [Event.write desc.flatten, Event.write []]
  else [Event.write [(desc.headD []).headD 0, 3], Event.write []]

/-- First interface of a list that recognises the string index; its
writer events when found (the loop stops at the first match). -/
def scanFirstV5 (w : List (List Nat) → List Event) (target : Nat) :
    List IfaceV5 → Option (List Event)
  | [] => none
  | f :: rest =>
    match f.writeStrDesc target with
    | some desc => some (w desc)
    | none => scanFirstV5 w target rest

/-- Fallback scan over every configuration (v5 lines 511-518): a match
breaks only the inner interface loop, so the outer loop keeps querying
the remaining configurations and their events accumulate. -/
def scanAllConfigsV5 (w : List (List Nat) → List Event) (target : Nat) :
    List ConfigV5 → List Event
  | [] => []
  | c :: rest =>
    (match scanFirstV5 w target c.interfaces with
      | some ev => ev
      | none => []) ++ scanAllConfigsV5 w target rest

/-- Shallow embedding of v5 `enumerator::handle_str_descriptors`
(lines 464-519). -/
def handleStrDescriptorsV5 (st : EnumStateV5) (targetIdx pLen : Nat) :
    StepResult EnumStateV5 :=
  let cfgStringEnd := (1 + 3 + st.configs.length) % 256
  if targetIdx ≤ cfgStringEnd then
    match writeCfgStrDescriptorV5 st targetIdx pLen with
    | none => ⟨st, [], some UsbError.argumentOutOfDomain⟩
    | some ev => ⟨{ st with ifaceForStrDesc := none }, ev, none⟩
  else
    let w := strScanWriterV5 pLen
    let cacheHit :=
      match st.ifaceForStrDesc with
      | some p =>
        if p.1 = targetIdx then
          match p.2.writeStrDesc targetIdx with
          | some desc => some [Event.write desc.flatten, Event.write []]
          | none => none
        else none
      | none => none
    match cacheHit with
    | some ev => ⟨st, ev, none⟩
    | none =>
      let activeHit :=
        match st.activeConf with
        | some i =>
          match st.configs.get? i with
          | some c => scanFirstV5 w targetIdx c.interfaces
          | none => none
        | none => none
      match activeHit with
      | some ev => ⟨st, ev, none⟩
      | none => ⟨st, scanAllConfigsV5 w targetIdx st.configs, none⟩

/-- Shallow embedding of v5 `enumerator::process_get_descriptor`
(lines 380-462). -/
def processGetDescriptorV5 (st : EnumStateV5) (req : SetupRequest) :
    StepResult EnumStateV5 :=
  let descType := req.value / 256 % 256
  let descIdx := req.value % 256
  if descType = 1 then
    let dev := st.device.setMaxPacketSize st.epMaxPacket
    let sub := makeSubScatterBytes req.length [[18, 1], dev.packed]
    ⟨{ st with device := dev },
      [Event.write (sub.1.take sub.2).flatten, Event.write []], none⟩
  else if descType = 2 then
    match st.configs.get? descIdx with
    | none => ⟨st, [], some UsbError.outOfRange⟩
    | some conf =>
      let sub := makeSubScatterBytes req.length [[9, 2], configV5Packed conf]
      let ev1 := [Event.write (sub.1.take sub.2).flatten]
      if req.length ≤ 9 then ⟨st, ev1 ++ [Event.write []], none⟩
      else
        ⟨st, ev1 ++ ifaceChainEventsV5 conf.interfaces ++ [Event.write []],
          none⟩
  else if descType = 3 then
    if descIdx = 0 then
      ⟨st, [Event.write ([4, 3] ++ le16 st.langStr), Event.write []], none⟩
    else handleStrDescriptorsV5 st descIdx req.length
  else ⟨st, [], some UsbError.operationNotSupported⟩

/-- Shallow embedding of v5 `enumerator::handle_standard_device_request`
(lines 344-378). `set_configuration` models `m_configs->at(value - 1)`:
the `at` bounds check throws for value 0 (the subtraction wraps to a
huge index) and for any value exceeding the array. -/
def handleStdDevRequestV5 (st : EnumStateV5) (req : SetupRequest) :
    StepResult EnumStateV5 :=
  let c := determineStandardRequest req
  if c = 0x05 then
    ⟨st, [Event.write [], Event.setAddress (req.value % 256)], none⟩
  else if c = 0x06 then
    processGetDescriptorV5 st req
  else if c = 0x08 then
    match st.activeConf with
    | none => ⟨st, [], some UsbError.operationNotPermitted⟩
    | some i => ⟨st, [Event.write [(st.configs.getD i default).configValue]], none⟩
  else if c = 0x09 then
    if 1 ≤ req.value ∧ req.value - 1 < st.configs.length then
      ⟨{ st with activeConf := some (req.value - 1) }, [], none⟩
    else ⟨st, [], some UsbError.outOfRange⟩
  else ⟨st, [], some UsbError.notConnected⟩

/-- Shallow embedding of v5 `enumerator::get_active_configuration`
(lines 278-285). -/
def getActiveConfigurationV5 (st : EnumStateV5) : Except UsbError ConfigV5 :=
  match st.activeConf with
  | none => Except.error UsbError.operationNotPermitted
  | some i => Except.ok (st.configs.getD i default)

/-- Modelled from the spec: bit layout of `bmRequestType` (spec §4.1,
"D7 direction, D6-5 type, D4-0 recipient"); the decoding accessors live
in libhal, not under src/. -/
def decodeKindBits (b : Nat) : ReqKind :=
  match b / 32 % 4 with
  | 0 => ReqKind.standard
  | 1 => ReqKind.classKind
  | 2 => ReqKind.vendor
  | _ => ReqKind.reserved

/-- Modelled from the spec: recipient bits D4-0 of `bmRequestType`
(spec §3), decoded by libhal accessors not under src/. -/
def decodeRecipientBits (b : Nat) : ReqRecipient :=
  match b % 32 with
  | 0 => ReqRecipient.device
  | 1 => ReqRecipient.iface
  | 2 => ReqRecipient.endpoint
  | _ => ReqRecipient.other

/-- Decoding of the raw 8 setup bytes into a `SetupRequest`, following
the legacy `setup_request` constructor (src/include/libhal-util/usb/
utils.hpp lines 121-128) with `from_le_bytes` for the three 16-bit
fields; the v5 `setup_packet` accessors behave identically. -/
def decodeSetupBytes (raw : List Nat) : SetupRequest :=
  let b0 := raw.getD 0 0
  { deviceToHost := b0 / 128 % 2 = 1
    kind := decodeKindBits b0
    recipient := decodeRecipientBits b0
    request := raw.getD 1 0
    value := 256 * raw.getD 3 0 + raw.getD 2 0
    index := 256 * raw.getD 5 0 + raw.getD 4 0
    length := 256 * raw.getD 7 0 + raw.getD 6 0 }

/-- Outcome of one iteration of an `enumerate()` setup-packet loop. -/
inductive LoopStep (σ : Type)
  | skip
  | fail (e : UsbError)
  | proceed (st : σ) (events : List Event) (finished : Bool)

/-- Shallow embedding of one iteration of the v5 `enumerate()`
setup-packet loop (lines 237-275): a zero-byte read restarts the wait, a
count other than 8 is a framing error, a non-device recipient is a
protocol violation, otherwise the packet is dispatched (no trailing ZLP
— that write is commented out in v5) and the loop finishes when the raw
request byte equals SET_CONFIGURATION. -/
def enumLoopBodyV5 (st : EnumStateV5) (bytesRead : Nat) (raw : List Nat) :
    LoopStep EnumStateV5 :=
  if bytesRead = 0 then LoopStep.skip
  else if bytesRead ≠ 8 then LoopStep.fail UsbError.messageSize
  else
    let req := decodeSetupBytes raw
    if req.recipient ≠ ReqRecipient.device then LoopStep.fail UsbError.notConnected
    else
      let r := handleStdDevRequestV5 st req
      match r.err with
      | some e => LoopStep.fail e
      | none => LoopStep.proceed r.state r.events (req.request = 9)

/-- Modelled from the spec: the legacy `usb_interface` contract lives in
libhal, not under src/. The legacy enumerator calls it through three
shapes: `write_descriptors(callback)` during `enumerate()` (emissions
`writeDescSpans` with returned deltas), `write_descriptors({nullopt,
nullopt}, callback)` while serving a configuration descriptor
(`writeDescProbe`), and `write_descriptors(callback, index)` on a
string-cache hit (`writeDescAt`). `writeStrDesc` and `handleReq` model
`write_string_descriptor` and `handle_request` as in the v5 contract. -/
structure IfaceLegacy where
  writeDescSpans : List (List (List Nat))
  deltaIface : Nat
  deltaStr : Nat
  writeDescProbe : List (List (List Nat))
  writeDescAt : Nat → List (List (List Nat))
  writeStrDesc : Nat → Option (List (List Nat))
  handleReq : SetupRequest → Bool × List (List Nat)
  deriving Inhabited

/-- State of a legacy `configuration`
(src/include/libhal-util/usb/descriptors.hpp lines 173-276). -/
structure ConfigLegacy where
  name : List Nat
  interfaces : List IfaceLegacy
  totalLength : Nat
  numInterfaces : Nat
  configValue : Nat
  configIndex : Nat
  attributes : Nat
  maxPower : Nat
  deriving Inhabited

/-- The 7-byte packed array of a legacy configuration in wire order. -/
def configLegacyPacked (c : ConfigLegacy) : List Nat :=
  le16 c.totalLength ++
    [c.numInterfaces % 256, c.configValue % 256, c.configIndex % 256,
     c.attributes % 256, c.maxPower % 256]

/-- The in-bounds contents of the 16-byte packed array produced by the
legacy `device::device` constructor (src/include/libhal-util/usb/
descriptors.hpp lines 59-95). This constructor calls
`hal::as_bytes(&field, 2)` with `T = u16`, producing
`sizeof(u16) * 2 = 4`-byte spans that run past each field into the
adjacent `device_arguments` members (class/subclass after bcdUSB,
idProduct after idVendor, bcdDevice after idProduct), and additionally
stores the low bcdUSB byte once more, so the write cursor reaches index
24; writes at index 16 and beyond fall outside the 16-byte array
(undefined behaviour in C++) and are modelled as dropped, which is what
`take 16` implements. -/
def deviceLegacyInitArr (a : DeviceArgs) : List Nat :=
  ((le16 a.bcdUsb ++ [a.deviceClass % 256, a.deviceSubclass % 256]) ++
    [a.bcdUsb % 256] ++
    [a.deviceClass % 256, a.deviceSubclass % 256, a.deviceProtocol % 256] ++
    [0] ++
    (le16 a.idVendor ++ le16 a.idProduct) ++
    (le16 a.idProduct ++ le16 a.bcdDevice) ++
    le16 a.bcdDevice).take 16

/-- State of a legacy `device`: packed array plus the owned strings. -/
structure DeviceLegacy where
  packed : List Nat
  manufacturerStr : List Nat
  productStr : List Nat
  serialNumberStr : List Nat
  deriving Inhabited

def DeviceLegacy.setIdx (d : DeviceLegacy) (pos v : Nat) : DeviceLegacy :=
  { d with packed := d.packed.set pos (v % 256) }

/-- State of the legacy `enumerator`
(src/include/libhal-util/usb/enumerator.hpp lines 413-420). `langStr` is
the byte view of the `std::string_view m_lang_str`. -/
structure EnumStateLegacy where
  device : DeviceLegacy
  configs : List ConfigLegacy
  langStr : List Nat
  startIdx : Nat
  epMaxPacket : Nat
  ifaceForStrDesc : Option (Nat × IfaceLegacy)
  activeConf : Option Nat
  hasSetupPacket : Bool
  deriving Inhabited

/-- Interface walk of the legacy total-length pass (lines 81-93):
identical shape to the v5 walk, but the legacy one-argument
`write_descriptors(callback)` takes no indices, so the emissions are
fixed per interface. -/
def walkIfacesLegacy (ci cs total : Nat) : List IfaceLegacy → Nat × Nat × Nat
  | [] => (ci, cs, total)
  | f :: rest =>
    let t := f.writeDescSpans.foldl
      (fun a sp => (a + scatterSpanSize sp) % 65536) total
    walkIfacesLegacy ((ci + f.deltaIface) % 256) ((cs + f.deltaStr) % 256) t rest

/-- Legacy total-length loop (lines 81-93): stores each configuration's
recomputed `total_length`; the legacy variant does not touch
`num_interfaces`. -/
def prepTotalsLegacy (ci cs : Nat) : List ConfigLegacy → List ConfigLegacy
  | [] => []
  | c :: rest =>
    let w := walkIfacesLegacy ci cs 9 c.interfaces
    { c with totalLength := w.2.2 } :: prepTotalsLegacy w.1 w.2.1 rest

/-- Legacy configuration metadata loop (lines 75-79): config `i`
receives string index `cur_str_idx++` (u8, wrapping) and configuration
value `i` (0-based, stored into a u8 field). -/
def assignCfgMetaLegacy (cur ival : Nat) : List ConfigLegacy → List ConfigLegacy × Nat
  | [] => ([], cur)
  | c :: rest =>
    let r := assignCfgMetaLegacy ((cur + 1) % 256) (ival + 1) rest
    ({ c with configIndex := cur % 256, configValue := ival % 256 } :: r.1, r.2)

/-- Phase one of legacy `enumerate()` (lines 56-93): reset and
disconnect on re-enumeration, assign the three device string indices
from the starting offset, the configuration count, configuration string
indices and 0-based configuration values, then recompute the totals. -/
def prepPhaseLegacy (st : EnumStateLegacy) : EnumStateLegacy × List Event :=
  let reset := if st.activeConf ≠ none then
      ({ st with activeConf := none }, [Event.connect false])
    else (st, [])
  let st0 := reset.1
  let s := st0.startIdx
  let dev := (((st0.device.setIdx 12 s).setIdx 13 (s + 1)).setIdx 14
      (s + 2)).setIdx 15 st0.configs.length
  let meta := assignCfgMetaLegacy ((s + 3) % 256) 0 st0.configs
  let cfgs2 := prepTotalsLegacy 0 meta.2 meta.1
  ({ st0 with device := dev, configs := cfgs2 }, reset.2)

/-- Shallow embedding of legacy
`enumerator::write_cfg_str_descriptor` (lines 366-411). The comparisons
`target_idx == m_starting_str_idx + k` are plain integer comparisons
(no u8 wrap-around), and the configuration loop matches
`m_starting_str_idx + i` — not `+ 3 + i` — and does not break. The
header length byte is the code-unit count of the UTF-16 view, and the
payload span reinterprets the char16 data while keeping only `size()`
bytes, i.e. the first half of the UTF-16LE bytes. -/
def writeCfgStrDescriptorLegacy (st : EnumStateLegacy) (targetIdx : Nat)
    (writeFullDesc : Bool) : Option (List Event) :=
  let s := st.startIdx
  let optSv :=
    if targetIdx = s then some st.device.manufacturerStr
    else if targetIdx = s + 1 then some st.device.productStr
    else if targetIdx = s + 2 then some st.device.serialNumberStr
    else
      st.configs.enum.foldl
        (fun acc ic => if targetIdx = s + ic.1 then some ic.2.name else acc)
        none
  match optSv with
  | none => none
  | some sv =>
    let ev1 := [Event.write [sv.length % 256, 3]]
    if writeFullDesc then
      some (ev1 ++ [Event.write ((u16leBytes sv).take sv.length)])
    else some ev1

/-- Writer closure of the legacy string-index scan (lines 335-345): the
full descriptor, or its first byte followed by the string descriptor
type, in a single endpoint write (no flush ZLP in the legacy variant). -/
def strScanWriterLegacy (writeFullDesc : Bool) (desc : List (List Nat)) :
    List Event :=
  if writeFullDesc then [Event.write desc.flatten]
  else [Event.write [(desc.headD []).headD 0, 3]]

/-- First legacy interface of a list that recognises the string index. -/
def scanFirstLegacy (w : List (List Nat) → List Event) (target : Nat) :
    List IfaceLegacy → Option (List Event)
  | [] => none
  | f :: rest =>
    match f.writeStrDesc target with
    | some desc => some (w desc)
    | none => scanFirstLegacy w target rest

/-- Legacy fallback scan over every configuration (lines 356-363): a
match breaks only the inner loop, so later configurations are still
queried and their writer events accumulate. -/
def scanAllConfigsLegacy (w : List (List Nat) → List Event) (target : Nat) :
    List ConfigLegacy → List Event
  | [] => []
  | c :: rest =>
    (match scanFirstLegacy w target c.interfaces with
      | some ev => ev
      | none => []) ++ scanAllConfigsLegacy w target rest

/-- Shallow embedding of legacy `enumerator::handle_str_descriptors`
(lines 313-364). The range check is `target_idx <= cfg_string_end` with
`cfg_string_end = m_starting_str_idx + 3 + num_configs` stored in a u8;
when the fallback scan finds nothing the function simply returns. -/
def handleStrDescriptorsLegacy (st : EnumStateLegacy) (targetIdx : Nat)
    (writeFullDesc : Bool) : StepResult EnumStateLegacy :=
  let cfgStringEnd := (st.startIdx + 3 + st.configs.length) % 256
  if targetIdx ≤ cfgStringEnd then
    match writeCfgStrDescriptorLegacy st targetIdx writeFullDesc with
    | none => ⟨st, [], some UsbError.argumentOutOfDomain⟩
    | some ev => ⟨{ st with ifaceForStrDesc := none }, ev, none⟩
  else
    let cacheHit :=
      match st.ifaceForStrDesc with
      | some p =>
        if p.1 = targetIdx ∧ writeFullDesc then
          some ((p.2.writeDescAt targetIdx).map fun sp => Event.write sp.flatten)
        else none
      | none => none
    match cacheHit with
    | some ev => ⟨st, ev, none⟩
    | none =>
      let w := strScanWriterLegacy writeFullDesc
      let activeHit :=
        match st.activeConf with
        | some i =>
          match st.configs.get? i with
          | some c => scanFirstLegacy w targetIdx c.interfaces
          | none => none
        | none => none
      match activeHit with
      | some ev => ⟨st, ev, none⟩
      | none => ⟨st, scanAllConfigsLegacy w targetIdx st.configs, none⟩

/-- Running `total_size` of the legacy configuration-descriptor branch
(lines 262-284): a u16 counter starting at the 9-byte header size,
incremented per emitted scatter span of the nullopt-probe walk. -/
def legacyConfigChainTotal (ifs : List IfaceLegacy) : Nat :=
  ifs.foldl
    (fun a f =>
      f.writeDescProbe.foldl (fun b sp => (b + scatterSpanSize sp) % 65536) a)
    9

/-- Shallow embedding of legacy `enumerator::process_get_descriptor`
(lines 235-311). `m_configs[desc_idx]` is unchecked indexing; an
out-of-range index is undefined behaviour in C++ and modelled as a
generic error. The mismatch check `total_size != req.length` throws a
generic `hal::exception`. -/
def processGetDescriptorLegacy (st : EnumStateLegacy) (req : SetupRequest) :
    StepResult EnumStateLegacy :=
  let descType := req.value / 256 % 256
  let descIdx := req.value % 256
  if descType = 1 then
    let dev := { st.device with
      packed := st.device.packed.set 5 (st.epMaxPacket % 256) }
    ⟨{ st with device := dev }, [Event.write ([18, 1] ++ dev.packed)], none⟩
  else if descType = 2 then
    match st.configs.get? descIdx with
    | none => ⟨st, [], some UsbError.genericException⟩
    | some conf =>
      if req.length ≤ 2 then
        ⟨st, [Event.write (le16 conf.totalLength)], none⟩
      else
        let ev1 := [Event.write ([9, 2] ++ configLegacyPacked conf)]
        let ev2 := conf.interfaces.flatMap fun f =>
          f.writeDescProbe.map fun sp => Event.write sp.flatten
        if legacyConfigChainTotal conf.interfaces ≠ req.length then
          ⟨st, ev1 ++ ev2, some UsbError.genericException⟩
        else ⟨st, ev1 ++ ev2, none⟩
  else if descType = 3 then
    if descIdx = 0 then
      ⟨st, [Event.write ([st.langStr.length % 256, 3] ++ st.langStr)], none⟩
    else handleStrDescriptorsLegacy st descIdx (req.length > 2)
  else ⟨st, [], some UsbError.operationNotSupported⟩

/-- Shallow embedding of legacy
`enumerator::handle_standard_device_request` (lines 199-233). The
switch is keyed on `get_standard_request()`; named-but-unhandled codes
and the raw codes returned for unnamed requests both land in the
default branch. `set_address` receives `req.value` narrowed to the
endpoint contract's u8 parameter; `set_configuration` indexes
`m_configs[req.value]` unchecked (out of range is undefined behaviour,
modelled as a generic error). -/
def handleStdDevRequestLegacy (st : EnumStateLegacy) (req : SetupRequest) :
    StepResult EnumStateLegacy :=
  let c := getStandardRequest req
  if c = 0x05 then
    ⟨st, [Event.setAddress (req.value % 256)], none⟩
  else if c = 0x06 then
    processGetDescriptorLegacy st req
  else if c = 0x08 then
    match st.activeConf with
    | none => ⟨st, [], some UsbError.operationNotPermitted⟩
    | some i => ⟨st, [Event.write [(st.configs.getD i default).configValue]], none⟩
  else if c = 0x09 then
    if req.value < st.configs.length then
      ⟨{ st with activeConf := some req.value }, [], none⟩
    else ⟨st, [], some UsbError.genericException⟩
  else ⟨st, [], some UsbError.notConnected⟩

/-- Shallow embedding of one iteration of the legacy `enumerate()`
setup-packet loop (lines 107-136): any read count other than 8 is a
framing error, a non-device recipient is a protocol violation, then the
dispatcher runs and the loop writes the completing ZLP; the loop
finishes when the raw request byte equals SET_CONFIGURATION. -/
def enumLoopBodyLegacy (st : EnumStateLegacy) (bytesRead : Nat)
    (raw : List Nat) : LoopStep EnumStateLegacy :=
  if bytesRead ≠ 8 then LoopStep.fail UsbError.messageSize
  else
    let req := decodeSetupBytes raw
    if req.recipient ≠ ReqRecipient.device then
      LoopStep.fail UsbError.notConnected
    else
      let r := handleStdDevRequestLegacy st req
      match r.err with
      | some e => LoopStep.fail e
      | none =>
        LoopStep.proceed r.state (r.events ++ [Event.write []])
          (req.request = 9)

/-- Consultation loop of the legacy interface-level dispatch (lines
181-188): each queried interface contributes an `ifaceRequestQuery`
event plus whatever response writes it performs; the loop stops at the
first interface reporting the request handled. -/
def ifaceDispatchLegacy (req : SetupRequest) :
    List IfaceLegacy → List Event × Bool
  | [] => ([], false)
  | f :: rest =>
    let r := f.handleReq req
    let ev := Event.ifaceRequestQuery :: r.2.map Event.write
    if r.1 then (ev, true)
    else
      let tail := ifaceDispatchLegacy req rest
      (ev ++ tail.1, tail.2)

/-- Shallow embedding of legacy
`enumerator::resume_ctrl_transaction` (lines 148-196), taking the
decoded setup packet that was read from the endpoint. An invalid
classification returns silently; a string GET_DESCRIPTOR goes straight
to string handling; a device recipient goes to the standard dispatcher;
anything else is offered to the active configuration's interfaces,
terminated by a ZLP, failing with a domain error when unhandled
(`get_active_configuration` itself throws when nothing is active). -/
def resumeCtrlTransactionLegacy (st : EnumStateLegacy) (req : SetupRequest) :
    StepResult EnumStateLegacy :=
  if getStandardRequest req = invalidRequestCode then ⟨st, [], none⟩
  else if determineStandardRequest req = 0x06 ∧ req.value / 256 % 256 = 3 then
    handleStrDescriptorsLegacy st (req.value % 256) (req.length > 2)
  else if req.recipient = ReqRecipient.device then
    handleStdDevRequestLegacy st req
  else
    match st.activeConf with
    | none => ⟨st, [], some UsbError.operationNotPermitted⟩
    | some i =>
      let conf := st.configs.getD i default
      let dispatch := ifaceDispatchLegacy req conf.interfaces
      let ev := dispatch.1 ++ [Event.write []]
      if dispatch.2 then ⟨st, ev, none⟩
      else ⟨st, ev, some UsbError.argumentOutOfDomain⟩

section Claims

/-- A standard-type request is never classified invalid unless the code
guard fires; conversely a non-standard type always classifies invalid. -/
theorem getStandardRequest_ne_invalid {r : SetupRequest}
    (h : getStandardRequest r ≠ invalidRequestCode) :
    r.kind = ReqKind.standard := by
  by_contra hk
  exact h (by unfold getStandardRequest; rw [if_pos (Or.inl hk)])

/-- C1 counterexample: a standard-type setup packet with request code
0x02 — a code outside the defined standard list — is not classified as
invalid: `get_standard_request` returns the raw code 0x02 cast into the
enum type, refuting the claim that every code outside the defined list
classifies as invalid. -/
theorem c1_counterexample :
    getStandardRequest ⟨true, ReqKind.standard, ReqRecipient.device, 0x02, 0, 0, 0⟩ =
      0x02 ∧
    getStandardRequest ⟨true, ReqKind.standard, ReqRecipient.device, 0x02, 0, 0, 0⟩ ≠
      invalidRequestCode ∧
    0x02 ∉ namedStandardCodes := by
  refine ⟨rfl, by decide, by decide⟩

/-- C1 (amended): `get_standard_request` returns a named standard
request exactly when the type bits indicate standard and the code is one
of the defined standard codes; code 0x04 and every code above 0x12
classify as invalid regardless of the type bits, and a non-standard type
always classifies as invalid; but a code outside the defined list that
is at most 0x12 and not 0x04 (0x02, 0x0B–0x10) is returned as the raw
code cast into the enum — neither a named request nor the invalid
sentinel. -/
theorem c1_amended (r : SetupRequest) :
    (getStandardRequest r ∈ namedStandardCodes ↔
      r.kind = ReqKind.standard ∧ r.request ∈ namedStandardCodes) ∧
    (r.request = 0x04 ∨ r.request > 0x12 →
      getStandardRequest r = invalidRequestCode) ∧
    (r.kind ≠ ReqKind.standard → getStandardRequest r = invalidRequestCode) ∧
    (r.kind = ReqKind.standard → r.request ≠ 0x04 → r.request ≤ 0x12 →
      getStandardRequest r = r.request) := by
  refine ⟨?_, ?_, ?_, ?_⟩
  · constructor
    · intro hmem
      by_cases hg : r.kind ≠ ReqKind.standard ∨ r.request = 0x04 ∨ r.request > 0x12
      · rw [getStandardRequest, if_pos hg] at hmem
        exact absurd hmem (by decide)
      · push_neg at hg
        rw [getStandardRequest, if_neg (by push_neg; exact hg)] at hmem
        exact ⟨hg.1, hmem⟩
    · rintro ⟨hk, hmem⟩
      have hall : ∀ c ∈ namedStandardCodes, c ≠ 0x04 ∧ c ≤ 0x12 := by decide
      have hne := hall _ hmem
      rw [getStandardRequest,
        if_neg (by push_neg; exact ⟨hk, hne.1, by omega⟩)]
      exact hmem
  · intro h
    rw [getStandardRequest, if_pos (Or.inr h)]
  · intro h
    rw [getStandardRequest, if_pos (Or.inl h)]
  · intro hk h4 hle
    rw [getStandardRequest, if_neg (by push_neg; exact ⟨hk, h4, by omega⟩)]

/-- C1 witness: concrete applications of the amended classification. -/
theorem c1_witness :
    getStandardRequest ⟨true, ReqKind.standard, ReqRecipient.device, 0x06, 0, 0, 0⟩ =
      0x06 ∧
    getStandardRequest ⟨true, ReqKind.vendor, ReqRecipient.device, 0x06, 0, 0, 0⟩ =
      invalidRequestCode ∧
    getStandardRequest ⟨true, ReqKind.standard, ReqRecipient.device, 0x04, 0, 0, 0⟩ =
      invalidRequestCode :=
  ⟨(c1_amended ⟨true, ReqKind.standard, ReqRecipient.device, 0x06, 0, 0, 0⟩).2.2.2
      rfl (by decide) (by decide),
    (c1_amended ⟨true, ReqKind.vendor, ReqRecipient.device, 0x06, 0, 0, 0⟩).2.2.1
      (by decide),
    (c1_amended ⟨true, ReqKind.standard, ReqRecipient.device, 0x04, 0, 0, 0⟩).2.1
      (Or.inl rfl)⟩

theorem subScatterLoop_take_sum (pcount : Nat) :
    ∀ (spans : List (List Nat)) (cur : Nat), cur ≤ pcount →
      pcount < cur + scatterSpanSize spans →
      scatterSpanSize ((subScatterLoop pcount cur spans).1.take
        (subScatterLoop pcount cur spans).2) = pcount - cur := by
  intro spans
  induction spans with
  | nil =>
    intro cur h1 h2
    rw [scatterSpanSize_nil] at h2
    omega
  | cons s rest ih =>
    intro cur h1 h2
    rw [scatterSpanSize_cons] at h2
    by_cases hge : pcount ≥ cur + s.length
    · have hih := ih (cur + s.length) hge (by omega)
      simp only [subScatterLoop, if_pos hge]
      rw [List.take_succ_cons, scatterSpanSize_cons, hih]
      omega
    · by_cases hcur : cur ≥ pcount
      · simp only [subScatterLoop, if_neg hge, if_pos hcur]
        rw [List.take_nil, scatterSpanSize_nil]
        omega
      · simp only [subScatterLoop, if_neg hge, if_neg hcur]
        rw [List.take_succ_cons, List.take_nil, scatterSpanSize_cons,
          scatterSpanSize_nil, List.length_take]
        omega

theorem subScatterLoop_stable_prefix (pcount : Nat) :
    ∀ (spans : List (List Nat)) (cur : Nat),
      (subScatterLoop pcount cur spans).1.take
          ((subScatterLoop pcount cur spans).2 - 1) =
        spans.take ((subScatterLoop pcount cur spans).2 - 1) := by
  intro spans
  induction spans with
  | nil => intro cur; rfl
  | cons s rest ih =>
    intro cur
    by_cases hge : pcount ≥ cur + s.length
    · simp only [subScatterLoop, if_pos hge]
      rcases hr : (subScatterLoop pcount (cur + s.length) rest).2 with _ | m
      · simp
      · have hpre := ih (cur + s.length)
        rw [hr] at hpre
        simp only [Nat.add_sub_cancel] at hpre
        simp only [Nat.add_sub_cancel, List.take_succ_cons]
        rw [hpre]
    · by_cases hcur : cur ≥ pcount
      · simp only [subScatterLoop, if_neg hge, if_pos hcur]
        rfl
      · simp only [subScatterLoop, if_neg hge, if_neg hcur]
        rfl

/-- C4: `make_sub_scatter_bytes(n, spans)` returns spans whose first
`count` entries sum to exactly `min n (total length)`; when `n` is at
least the total, every span is returned unmodified with `count` the
number of spans; and every included span except possibly the last is an
unmodified input span. -/
theorem c4_theorem (n : Nat) (spans : List (List Nat)) :
    scatterSpanSize ((makeSubScatterBytes n spans).1.take
        (makeSubScatterBytes n spans).2) =
      min n (scatterSpanSize spans) ∧
    (scatterSpanSize spans ≤ n →
      (makeSubScatterBytes n spans).1 = spans ∧
      (makeSubScatterBytes n spans).2 = spans.length) ∧
    (makeSubScatterBytes n spans).1.take ((makeSubScatterBytes n spans).2 - 1) =
      spans.take ((makeSubScatterBytes n spans).2 - 1) := by
  unfold makeSubScatterBytes
  by_cases h : scatterSpanSize spans ≤ n
  · rw [if_pos h]
    refine ⟨?_, fun _ => ⟨rfl, rfl⟩, rfl⟩
    rw [List.take_length, Nat.min_eq_right h]
  · rw [if_neg h]
    refine ⟨?_, fun hc => absurd hc h, subScatterLoop_stable_prefix n spans 0⟩
    have hsum := subScatterLoop_take_sum n spans 0 (Nat.zero_le n) (by omega)
    rw [hsum, Nat.sub_zero, Nat.min_eq_left (by omega)]

/-- Concrete spans used to witness the sub-scatter theorem. -/
def c4Spans : List (List Nat) := [[1, 2, 3], [4, 5, 6, 7], [8, 9]]

/-- C4 witness: truncating to 5 of 9 bytes yields exactly 5 bytes, and
requesting 9 of 9 returns every span unmodified. -/
theorem c4_witness :
    scatterSpanSize ((makeSubScatterBytes 5 c4Spans).1.take
        (makeSubScatterBytes 5 c4Spans).2) =
      min 5 (scatterSpanSize c4Spans) ∧
    (makeSubScatterBytes 9 c4Spans).1 = c4Spans :=
  ⟨(c4_theorem 5 c4Spans).1, ((c4_theorem 9 c4Spans).2.1 (by decide)).1⟩

/-- Blank v5 device used for concrete evaluations. -/
def emptyDeviceV5 : DeviceV5 :=
  { packed := List.replicate 16 0, manufacturerStr := [], productStr := [],
    serialNumberStr := [] }

/-- Minimal v5 enumerator state used for concrete evaluations. -/
def emptyStateV5 : EnumStateV5 :=
  { device := emptyDeviceV5, configs := [], langStr := 0x0409,
    epMaxPacket := 64, ifaceForStrDesc := none, activeConf := none,
    hasSetupPacket := false }

/-- Blank legacy device used for concrete evaluations. -/
def emptyDeviceLegacy : DeviceLegacy :=
  { packed := List.replicate 16 0, manufacturerStr := [], productStr := [],
    serialNumberStr := [] }

/-- Minimal legacy enumerator state used for concrete evaluations. -/
def emptyStateLegacy : EnumStateLegacy :=
  { device := emptyDeviceLegacy, configs := [], langStr := [76, 65],
    startIdx := 1, epMaxPacket := 64, ifaceForStrDesc := none,
    activeConf := none, hasSetupPacket := false }

/-- C8 counterexample: in the v5 `enumerate()` loop a read that returns
0 bytes — a count different from 8 — does not raise the framing error;
the iteration is silently skipped and the loop returns to waiting. -/
theorem c8_counterexample :
    enumLoopBodyV5 emptyStateV5 0 [] = LoopStep.skip ∧
    enumLoopBodyV5 emptyStateV5 0 [] ≠ LoopStep.fail UsbError.messageSize :=
  ⟨rfl, fun h => nomatch h⟩

/-- C8 (amended): in the legacy loop every read count other than 8
raises the framing (message-size) error; in the v5 loop a 0-byte read
is silently skipped while every other count different from 8 raises the
framing error; the setup packet is decoded and dispatched only when
exactly 8 bytes were read. -/
theorem c8_amended (stl : EnumStateLegacy) (stv : EnumStateV5) (n : Nat)
    (raw : List Nat) :
    (n ≠ 8 → enumLoopBodyLegacy stl n raw = LoopStep.fail UsbError.messageSize) ∧
    (n ≠ 8 → n ≠ 0 → enumLoopBodyV5 stv n raw = LoopStep.fail UsbError.messageSize) ∧
    enumLoopBodyV5 stv 0 raw = LoopStep.skip := by
  refine ⟨fun h => ?_, fun h h0 => ?_, ?_⟩
  · rw [enumLoopBodyLegacy, if_pos h]
  · rw [enumLoopBodyV5, if_neg h0, if_pos h]
  · rw [enumLoopBodyV5, if_pos rfl]

/-- C8 witness: concrete short and zero-length reads. -/
theorem c8_witness :
    enumLoopBodyLegacy emptyStateLegacy 3 [] = LoopStep.fail UsbError.messageSize ∧
    enumLoopBodyV5 emptyStateV5 7 [] = LoopStep.fail UsbError.messageSize :=
  ⟨(c8_amended emptyStateLegacy emptyStateV5 3 []).1 (by decide),
    (c8_amended emptyStateLegacy emptyStateV5 7 []).2.1 (by decide) (by decide)⟩

/-- Raw bytes of a SET_ADDRESS setup packet for address 0x30:
`bmRequestType` 0 (host-to-device, standard, device), `bRequest` 5,
`wValue` 0x0030. -/
def c6Raw : List Nat := [0x00, 0x05, 0x30, 0x00, 0x00, 0x00, 0x00, 0x00]

/-- C6 counterexample: in the legacy enumerator a SET_ADDRESS request
produces the endpoint trace `[set_address 0x30, ZLP]` — the dispatcher
calls `set_address` first and the completing ZLP is only written
afterwards by the loop, refuting the claim that the engine always
writes the ZLP before calling `set_address`. -/
theorem c6_counterexample :
    getStandardRequest (decodeSetupBytes c6Raw) = 0x05 ∧
    enumLoopBodyLegacy emptyStateLegacy 8 c6Raw =
      LoopStep.proceed emptyStateLegacy
        [Event.setAddress 0x30, Event.write []] false := by
  exact ⟨rfl, rfl⟩

/-- C6 (amended): the v5 dispatcher writes the zero-length-packet status
response first and then calls `set_address` with the low byte of the
setup packet's value field; the legacy dispatcher instead calls
`set_address` (also with the low byte of value) without a preceding ZLP,
the enumerate loop appending the ZLP after the dispatcher returns. -/
theorem c6_amended (stv : EnumStateV5) (stl : EnumStateLegacy)
    (req : SetupRequest) (raw : List Nat) :
    (determineStandardRequest req = 0x05 →
      (handleStdDevRequestV5 stv req).events =
        [Event.write [], Event.setAddress (req.value % 256)]) ∧
    (getStandardRequest req = 0x05 →
      (handleStdDevRequestLegacy stl req).events =
        [Event.setAddress (req.value % 256)]) ∧
    (decodeSetupBytes raw = req → req.recipient = ReqRecipient.device →
      getStandardRequest req = 0x05 →
      enumLoopBodyLegacy stl 8 raw =
        LoopStep.proceed stl
          [Event.setAddress (req.value % 256), Event.write []]
          (req.request = 9)) := by
  refine ⟨fun h => ?_, fun h => ?_, fun hdec hrec h => ?_⟩
  · simp [handleStdDevRequestV5, h]
  · simp [handleStdDevRequestLegacy, h]
  · rw [enumLoopBodyLegacy, if_neg (by omega), hdec,
      if_neg (fun hc => hc hrec)]
    simp [handleStdDevRequestLegacy, h]

/-- C6 witness: the amended ordering at a concrete SET_ADDRESS packet. -/
theorem c6_witness :
    (handleStdDevRequestV5 emptyStateV5 (decodeSetupBytes c6Raw)).events =
      [Event.write [], Event.setAddress 0x30] ∧
    (handleStdDevRequestLegacy emptyStateLegacy (decodeSetupBytes c6Raw)).events =
      [Event.setAddress 0x30] :=
  ⟨(c6_amended emptyStateV5 emptyStateLegacy (decodeSetupBytes c6Raw) c6Raw).1
      (by decide),
    (c6_amended emptyStateV5 emptyStateLegacy (decodeSetupBytes c6Raw) c6Raw).2.1
      (by decide)⟩

/-- C10: in the legacy `resume_ctrl_transaction` every setup packet
whose type bits indicate a class or vendor request classifies as an
invalid standard request, and the function returns immediately with no
endpoint write and the enumerator state unchanged; consequently the
interface-level `handle_request` consultation is only ever reached by
setup packets whose type bits indicate a standard request. -/
theorem c10_theorem (st : EnumStateLegacy) (req : SetupRequest) :
    ((req.kind = ReqKind.classKind ∨ req.kind = ReqKind.vendor) →
      resumeCtrlTransactionLegacy st req = ⟨st, [], none⟩) ∧
    (Event.ifaceRequestQuery ∈ (resumeCtrlTransactionLegacy st req).events →
      req.kind = ReqKind.standard) := by
  constructor
  · intro h
    have hk : req.kind ≠ ReqKind.standard := by
      rcases h with h | h <;> rw [h] <;> intro hc <;> exact nomatch hc
    have hinv : getStandardRequest req = invalidRequestCode := by
      rw [getStandardRequest, if_pos (Or.inl hk)]
    rw [resumeCtrlTransactionLegacy, if_pos hinv]
  · intro hmem
    by_cases hinv : getStandardRequest req = invalidRequestCode
    · rw [resumeCtrlTransactionLegacy, if_pos hinv] at hmem
      exact absurd hmem (by simp)
    · exact getStandardRequest_ne_invalid hinv

/-- Interface that handles every interface-level request with no
response bytes, used to witness the dispatch path. -/
def c10Iface : IfaceLegacy :=
  { writeDescSpans := [], deltaIface := 1, deltaStr := 0,
    writeDescProbe := [], writeDescAt := fun _ => [],
    writeStrDesc := fun _ => none, handleReq := fun _ => (true, []) }

/-- Configuration owning `c10Iface`. -/
def c10Config : ConfigLegacy :=
  { name := [67], interfaces := [c10Iface], totalLength := 0,
    numInterfaces := 1, configValue := 0, configIndex := 4,
    attributes := 0xC0, maxPower := 50 }

/-- Legacy state with one active configuration owning `c10Iface`. -/
def c10State : EnumStateLegacy :=
  { emptyStateLegacy with configs := [c10Config], activeConf := some 0 }

/-- C10 witness: a vendor-type packet returns untouched, and an
interface-recipient standard packet that does reach the dispatch loop
has standard type bits. -/
theorem c10_witness :
    resumeCtrlTransactionLegacy emptyStateLegacy
        ⟨true, ReqKind.vendor, ReqRecipient.iface, 0x01, 0, 0, 0⟩ =
      ⟨emptyStateLegacy, [], none⟩ ∧
    (⟨true, ReqKind.standard, ReqRecipient.iface, 0x00, 0, 0, 0⟩ :
        SetupRequest).kind = ReqKind.standard :=
  ⟨(c10_theorem emptyStateLegacy
      ⟨true, ReqKind.vendor, ReqRecipient.iface, 0x01, 0, 0, 0⟩).1 (Or.inr rfl),
    (c10_theorem c10State
      ⟨true, ReqKind.standard, ReqRecipient.iface, 0x00, 0, 0, 0⟩).2
      (by
        have hev : (resumeCtrlTransactionLegacy c10State
            ⟨true, ReqKind.standard, ReqRecipient.iface, 0x00, 0, 0, 0⟩).events =
            [Event.ifaceRequestQuery, Event.write []] := rfl
        rw [hev]
        exact List.mem_cons_self _ _)⟩

theorem foldl_addmod (xs : List Nat) :
    ∀ t, t < 65536 →
      xs.foldl (fun a x => (a + x) % 65536) t = (t + xs.sum) % 65536 := by
  induction xs with
  | nil =>
    intro t h
    simp [Nat.mod_eq_of_lt h]
  | cons x rest ih =>
    intro t h
    simp only [List.foldl_cons, List.sum_cons]
    rw [ih ((t + x) % 65536) (Nat.mod_lt _ (by omega)), Nat.mod_add_mod]
    congr 1
    omega

theorem walkIfacesV5_counters (ifs : List IfaceV5) :
    ∀ ci cs t, (walkIfacesV5 ci cs t ifs).1 = (threadV5 ci cs ifs).1 ∧
      (walkIfacesV5 ci cs t ifs).2.1 = (threadV5 ci cs ifs).2 := by
  induction ifs with
  | nil => intro ci cs t; exact ⟨rfl, rfl⟩
  | cons f rest ih => intro ci cs t; exact ih _ _ _

theorem walkIfacesV5_total (ifs : List IfaceV5) :
    ∀ ci cs t, t < 65536 →
      (walkIfacesV5 ci cs t ifs).2.2 =
        (t + (specEmittedSizesV5 ci cs ifs).sum) % 65536 := by
  induction ifs with
  | nil =>
    intro ci cs t h
    simp [walkIfacesV5, specEmittedSizesV5, Nat.mod_eq_of_lt h]
  | cons f rest ih =>
    intro ci cs t h
    simp only [walkIfacesV5, specEmittedSizesV5, List.sum_append]
    rw [← List.foldl_map scatterSpanSize (fun a x => (a + x) % 65536),
      foldl_addmod _ t h]
    rw [ih _ _ _ (Nat.mod_lt _ (by omega)), Nat.mod_add_mod]
    congr 1
    omega

theorem assignCfgMetaV5_length (l : List ConfigV5) :
    ∀ cur ival, ((assignCfgMetaV5 cur ival l).1).length = l.length := by
  induction l with
  | nil => intro _ _; rfl
  | cons c rest ih =>
    intro cur ival
    simp only [assignCfgMetaV5, List.length_cons]
    rw [ih]

theorem assignCfgMetaV5_map_interfaces (l : List ConfigV5) :
    ∀ cur ival, ((assignCfgMetaV5 cur ival l).1).map (fun c => c.interfaces) =
      l.map (fun c => c.interfaces) := by
  induction l with
  | nil => intro _ _; rfl
  | cons c rest ih =>
    intro cur ival
    simp only [assignCfgMetaV5, List.map_cons]
    rw [ih]

theorem assignCfgMetaV5_final (l : List ConfigV5) :
    ∀ cur ival, cur < 256 →
      (assignCfgMetaV5 cur ival l).2 = (cur + l.length) % 256 := by
  induction l with
  | nil =>
    intro cur ival h
    simp [assignCfgMetaV5, Nat.mod_eq_of_lt h]
  | cons c rest ih =>
    intro cur ival h
    simp only [assignCfgMetaV5, List.length_cons]
    rw [ih _ (ival + 1) (Nat.mod_lt _ (by omega)), Nat.mod_add_mod]
    congr 1
    omega

theorem assignCfgMetaV5_configValue_at (l : List ConfigV5) :
    ∀ cur ival k, k < l.length →
      (((assignCfgMetaV5 cur ival l).1).getD k default).configValue =
        (ival + 1 + k) % 256 := by
  induction l with
  | nil => intro _ _ k h; exact absurd h (by simp)
  | cons c rest ih =>
    intro cur ival k h
    cases k with
    | zero => rfl
    | succ m =>
      simp only [assignCfgMetaV5, List.getD_cons_succ]
      rw [show ival + 1 + (m + 1) = (ival + 1) + 1 + m by omega]
      exact ih _ (ival + 1) m (by simpa using h)

theorem prepTotalsV5_configValue_at (l : List ConfigV5) :
    ∀ ci cs k, ((prepTotalsV5 ci cs l).getD k default).configValue =
      ((l.getD k default).configValue) := by
  induction l with
  | nil => intro _ _ k; rfl
  | cons c rest ih =>
    intro ci cs k
    cases k with
    | zero => rfl
    | succ m =>
      simp only [prepTotalsV5, List.getD_cons_succ]
      exact ih _ _ m

theorem prepTotalsV5_totalLength_at (l : List ConfigV5) :
    ∀ ci cs k, k < l.length →
      ((prepTotalsV5 ci cs l).getD k default).totalLength =
        (9 + ((specPassEmissionsV5 ci cs (l.map (fun c => c.interfaces))).getD
          k []).sum) % 65536 := by
  induction l with
  | nil => intro _ _ k h; exact absurd h (by simp)
  | cons c rest ih =>
    intro ci cs k h
    cases k with
    | zero =>
      simp only [prepTotalsV5, List.map_cons, specPassEmissionsV5,
        List.getD_cons_zero]
      exact walkIfacesV5_total c.interfaces ci cs 9 (by omega)
    | succ m =>
      simp only [prepTotalsV5, List.map_cons, specPassEmissionsV5,
        List.getD_cons_succ]
      rw [← (walkIfacesV5_counters c.interfaces ci cs 9).1,
        ← (walkIfacesV5_counters c.interfaces ci cs 9).2]
      exact ih _ _ m (by simpa using h)

theorem prepPhaseV5_configs (st : EnumStateV5) :
    (prepPhaseV5 st).1.configs =
      prepTotalsV5 0 (assignCfgMetaV5 4 0 st.configs).2
        (assignCfgMetaV5 4 0 st.configs).1 := by
  unfold prepPhaseV5
  cases h : st.activeConf <;> simp [h]

/-- Interface recognising no string index, used for the C2 evaluation. -/
def c2Iface : IfaceLegacy :=
  { writeDescSpans := [], deltaIface := 1, deltaStr := 0,
    writeDescProbe := [], writeDescAt := fun _ => [],
    writeStrDesc := fun _ => none, handleReq := fun _ => (false, []) }

/-- One configuration with name "CFG" owning `c2Iface`. -/
def c2Config : ConfigLegacy :=
  { name := [67, 70, 71], interfaces := [c2Iface], totalLength := 0,
    numInterfaces := 1, configValue := 0, configIndex := 0,
    attributes := 0xC0, maxPower := 50 }

/-- Legacy state with starting string offset 1 and one configuration. -/
def c2State : EnumStateLegacy :=
  { emptyStateLegacy with configs := [c2Config] }

/-- C2: with starting offset 1 and one configuration, `enumerate()`
assigns the configuration's name string index 1 + 3 + 0 = 4, yet a
string-descriptor request for index 4 — squarely inside the claimed
device/configuration range [1, 1 + 3 + 1) — raises
`argument_out_of_domain` with no response, because
`write_cfg_str_descriptor` matches configuration names against
`m_starting_str_idx + i` instead of the assigned
`m_starting_str_idx + 3 + i`. -/
theorem c2_code_bug :
    (prepPhaseLegacy c2State).1.configs.map (fun c => c.configIndex) = [4] ∧
    (handleStrDescriptorsLegacy (prepPhaseLegacy c2State).1 4 true).err =
      some UsbError.argumentOutOfDomain ∧
    (handleStrDescriptorsLegacy (prepPhaseLegacy c2State).1 4 true).events = [] :=
  ⟨rfl, rfl, rfl⟩

/-- Device constructor arguments used for the C7 evaluation. -/
def c7Args : DeviceArgs :=
  { bcdUsb := 0x0200, deviceClass := 0xFE, deviceSubclass := 1,
    deviceProtocol := 7, idVendor := 0x1234, idProduct := 0x5678,
    bcdDevice := 0x0101, manufacturer := [77], product := [80],
    serialNumber := [83] }

/-- Legacy device constructed from `c7Args`. -/
def c7Device : DeviceLegacy :=
  { packed := deviceLegacyInitArr c7Args, manufacturerStr := [77],
    productStr := [80], serialNumberStr := [83] }

/-- Legacy state owning `c7Device`, endpoint max packet size 64. -/
def c7State : EnumStateLegacy :=
  { emptyStateLegacy with device := c7Device }

/-- GET_DESCRIPTOR(device, length 18) setup packet. -/
def c7Req : SetupRequest :=
  ⟨true, ReqKind.standard, ReqRecipient.device, 0x06, 0x0100, 0, 18⟩

/-- The 18-byte device-descriptor wire layout exactly as the spec words
it (§6): bLength 18, bDescriptorType 1, bcdUSB (2 LE), bDeviceClass,
bDeviceSubClass, bDeviceProtocol, bMaxPacketSize0, idVendor (2 LE),
idProduct (2 LE), bcdDevice (2 LE), the three string indices and
bNumConfigurations. -/
def specDeviceDescriptor (a : DeviceArgs)
    (maxPacket numConfigs manuIdx prodIdx snIdx : Nat) : List Nat :=
  [18, 1] ++ le16 a.bcdUsb ++
    [a.deviceClass % 256, a.deviceSubclass % 256, a.deviceProtocol % 256,
     maxPacket % 256] ++
    le16 a.idVendor ++ le16 a.idProduct ++ le16 a.bcdDevice ++
    [manuIdx % 256, prodIdx % 256, snIdx % 256, numConfigs % 256]

/-- Bytes the legacy device branch actually writes for `c7State`. -/
def c7Wire : List Nat := [18, 1] ++ (deviceLegacyInitArr c7Args).set 5 64

/-- C7: the legacy GET_DESCRIPTOR(device, 18) response is not the wire
layout the claim describes — byte 6 (bDeviceProtocol's position) carries
the low bcdUSB byte 0x00 instead of the protocol 0x07, because the
legacy `device::device` constructor misplaces every field after bcdUSB
(4-byte `as_bytes` over-reads plus a duplicated bcdUSB byte, pushing the
string-index and configuration-count writes out of the array). -/
theorem c7_code_bug :
    (processGetDescriptorLegacy c7State c7Req).events = [Event.write c7Wire] ∧
    c7Wire.getD 6 0 = 0x00 ∧
    (specDeviceDescriptor c7Args 64 0 1 2 3).getD 6 0 = 0x07 ∧
    c7Wire ≠ specDeviceDescriptor c7Args 64 0 1 2 3 :=
  ⟨rfl, rfl, rfl, by decide⟩

/-- Supporting result: the v5 pairing of `device::device` and
`process_get_descriptor` does produce exactly the spec's 18-byte wire
layout — the device descriptor packed by the v5 constructor, with
`bNumConfigurations` and `bMaxPacketSize0` filled in, followed by the
flush ZLP. -/
theorem v5_device_descriptor_wire (a : DeviceArgs) (n mp : Nat) :
    (processGetDescriptorV5
        { emptyStateV5 with
          device := { packed := (deviceV5InitArr a).set 15 (n % 256),
                      manufacturerStr := a.manufacturer,
                      productStr := a.product,
                      serialNumberStr := a.serialNumber },
          epMaxPacket := mp }
        ⟨true, ReqKind.standard, ReqRecipient.device, 0x06, 0x0100, 0, 18⟩).events =
      [Event.write (specDeviceDescriptor a mp n 1 2 3), Event.write []] := rfl

/-- C5: GET_CONFIGURATION with no active configuration fails with
operation-not-permitted, and with an active configuration responds with
exactly its single configuration-value byte;
`get_active_configuration()` fails with operation-not-permitted while
nothing is active; SET_CONFIGURATION with a value selecting an existing
configuration (1-based, matching the numbering `enumerate()` assigns)
makes `get_active_configuration()` return that configuration, whose
`configuration_value` the preparation phase set to the selecting value. -/
theorem c5_theorem (st : EnumStateV5) (reqGet reqSet : SetupRequest)
    (i v : Nat) :
    (st.activeConf = none → determineStandardRequest reqGet = 0x08 →
      handleStdDevRequestV5 st reqGet =
        ⟨st, [], some UsbError.operationNotPermitted⟩) ∧
    (st.activeConf = none →
      getActiveConfigurationV5 st =
        Except.error UsbError.operationNotPermitted) ∧
    (st.activeConf = some i → determineStandardRequest reqGet = 0x08 →
      handleStdDevRequestV5 st reqGet =
        ⟨st, [Event.write [(st.configs.getD i default).configValue]], none⟩) ∧
    (determineStandardRequest reqSet = 0x09 → reqSet.value = v → 1 ≤ v →
      v ≤ st.configs.length →
      handleStdDevRequestV5 st reqSet =
        ⟨{ st with activeConf := some (v - 1) }, [], none⟩ ∧
      getActiveConfigurationV5 { st with activeConf := some (v - 1) } =
        Except.ok (st.configs.getD (v - 1) default)) ∧
    (1 ≤ v → v ≤ st.configs.length → st.configs.length ≤ 255 →
      (((prepPhaseV5 st).1.configs).getD (v - 1) default).configValue = v) := by
  refine ⟨fun h1 h2 => ?_, fun h1 => ?_, fun h1 h2 => ?_,
    fun h9 hv h1 hN => ⟨?_, ?_⟩, fun h1 hN h255 => ?_⟩
  · simp [handleStdDevRequestV5, h2, h1]
  · simp [getActiveConfigurationV5, h1]
  · simp [handleStdDevRequestV5, h2, h1]
  · have hc : 1 ≤ reqSet.value ∧ reqSet.value - 1 < st.configs.length := by
      constructor <;> omega
    simp only [handleStdDevRequestV5, h9, hc, hv]
    simp [hv]
    omega
  · simp [getActiveConfigurationV5]
  · rw [prepPhaseV5_configs, prepTotalsV5_configValue_at,
      assignCfgMetaV5_configValue_at st.configs 4 0 (v - 1) (by omega),
      show 0 + 1 + (v - 1) = v by omega]
    exact Nat.mod_eq_of_lt (by omega)

/-- Configuration with no interfaces used in the C5 witness. -/
def c5Config : ConfigV5 :=
  { name := [84], interfaces := [], totalLength := 0, numInterfaces := 0,
    configValue := 0, configIndex := 0, attributes := 0xC0, maxPower := 50 }

/-- v5 state with exactly one configuration and nothing active. -/
def c5State : EnumStateV5 :=
  { emptyStateV5 with configs := [c5Config] }

/-- GET_CONFIGURATION setup packet. -/
def c5GetReq : SetupRequest :=
  ⟨true, ReqKind.standard, ReqRecipient.device, 0x08, 0, 0, 1⟩

/-- SET_CONFIGURATION(value 1) setup packet. -/
def c5SetReq : SetupRequest :=
  ⟨false, ReqKind.standard, ReqRecipient.device, 0x09, 1, 0, 0⟩

/-- C5 witness: GET_CONFIGURATION before SET_CONFIGURATION fails;
selecting configuration value 1 activates the only configuration and
the preparation phase gave it configuration value 1. -/
theorem c5_witness :
    handleStdDevRequestV5 c5State c5GetReq =
      ⟨c5State, [], some UsbError.operationNotPermitted⟩ ∧
    getActiveConfigurationV5 { c5State with activeConf := some 0 } =
      Except.ok (c5State.configs.getD 0 default) ∧
    (((prepPhaseV5 c5State).1.configs).getD 0 default).configValue = 1 :=
  ⟨(c5_theorem c5State c5GetReq c5SetReq 0 1).1 rfl (by decide),
    ((c5_theorem c5State c5GetReq c5SetReq 0 1).2.2.2.1 (by decide) rfl
      (by decide) (by decide)).2,
    (c5_theorem c5State c5GetReq c5SetReq 0 1).2.2.2.2 (by decide) (by decide)
      (by decide)⟩

/-- C3: after the preparation phase of v5 `enumerate()`, every
configuration's `total_length` equals the 9-byte configuration header
size plus the sum of `scatter_span_size` over every byte span emitted
through the `write_descriptors` callback by that configuration's
interfaces during the same pass (provided the sum fits a u16, which the
field truncates to). -/
theorem c3_theorem (st : EnumStateV5) (k : Nat) (hk : k < st.configs.length)
    (hfit : 9 + ((specPassEmissionsV5 0 ((4 + st.configs.length) % 256)
        (st.configs.map (fun c => c.interfaces))).getD k []).sum < 65536) :
    (((prepPhaseV5 st).1.configs).getD k default).totalLength =
      9 + ((specPassEmissionsV5 0 ((4 + st.configs.length) % 256)
        (st.configs.map (fun c => c.interfaces))).getD k []).sum := by
  rw [prepPhaseV5_configs, assignCfgMetaV5_final st.configs 4 0 (by omega),
    prepTotalsV5_totalLength_at _ _ _ k
      (by rw [assignCfgMetaV5_length]; exact hk),
    assignCfgMetaV5_map_interfaces]
  exact Nat.mod_eq_of_lt hfit

/-- Interface emitting two scatter spans of 4 and 2 bytes, consuming one
interface index and two string indices, used in the C3 witness. -/
def c3Iface : IfaceV5 :=
  { writeDesc := fun _ _ => ((1, 2), [[[1, 2, 3], [4]], [[5, 5]]]),
    writeStrDesc := fun _ => none, handleReq := fun _ => (false, []) }

/-- Configuration owning `c3Iface`. -/
def c3Config : ConfigV5 :=
  { name := [67], interfaces := [c3Iface], totalLength := 0,
    numInterfaces := 0, configValue := 0, configIndex := 0,
    attributes := 0xC0, maxPower := 50 }

/-- v5 state with the single configuration `c3Config`. -/
def c3State : EnumStateV5 :=
  { emptyStateV5 with configs := [c3Config] }

/-- C3 witness: the emitted spans total 6 bytes, so the computed total
length is 9 + 6 = 15. -/
theorem c3_witness :
    (((prepPhaseV5 c3State).1.configs).getD 0 default).totalLength =
      9 + ((specPassEmissionsV5 0 ((4 + c3State.configs.length) % 256)
        (c3State.configs.map (fun c => c.interfaces))).getD 0 []).sum ∧
    (((prepPhaseV5 c3State).1.configs).getD 0 default).totalLength = 15 :=
  ⟨c3_theorem c3State 0 (by decide)
      (by
        have h : ((specPassEmissionsV5 0 ((4 + c3State.configs.length) % 256)
            (c3State.configs.map (fun c => c.interfaces))).getD 0 []).sum = 6 :=
          rfl
        omega),
    rfl⟩

theorem walkIfacesLegacy_total_indep (ifs : List IfaceLegacy) :
    ∀ ci cs ci' cs' t,
      (walkIfacesLegacy ci cs t ifs).2.2 = (walkIfacesLegacy ci' cs' t ifs).2.2 := by
  induction ifs with
  | nil => intro _ _ _ _ _; rfl
  | cons f rest ih => intro ci cs ci' cs' t; exact ih _ _ _ _ _

/-- Recomputed `total_length` of one legacy configuration: header size 9
plus the u16-wrapped accumulation over the interfaces' emitted spans
(the interface/string counters do not influence it). -/
def legacyPrepTotalOf (ifs : List IfaceLegacy) : Nat :=
  (walkIfacesLegacy 0 0 9 ifs).2.2

theorem prepTotalsLegacy_map_totalLength (l : List ConfigLegacy) :
    ∀ ci cs, (prepTotalsLegacy ci cs l).map (fun c => c.totalLength) =
      l.map (fun c => legacyPrepTotalOf c.interfaces) := by
  induction l with
  | nil => intro _ _; rfl
  | cons c rest ih =>
    intro ci cs
    simp only [prepTotalsLegacy, List.map_cons]
    rw [ih]
    exact congrArg (· :: _) (walkIfacesLegacy_total_indep c.interfaces ci cs 0 0 9)

theorem prepTotalsLegacy_map_configIndex (l : List ConfigLegacy) :
    ∀ ci cs, (prepTotalsLegacy ci cs l).map (fun c => c.configIndex) =
      l.map (fun c => c.configIndex) := by
  induction l with
  | nil => intro _ _; rfl
  | cons c rest ih =>
    intro ci cs
    simp only [prepTotalsLegacy, List.map_cons]
    rw [ih]

theorem prepTotalsLegacy_map_configValue (l : List ConfigLegacy) :
    ∀ ci cs, (prepTotalsLegacy ci cs l).map (fun c => c.configValue) =
      l.map (fun c => c.configValue) := by
  induction l with
  | nil => intro _ _; rfl
  | cons c rest ih =>
    intro ci cs
    simp only [prepTotalsLegacy, List.map_cons]
    rw [ih]

theorem assignCfgMetaLegacy_map_configIndex (l : List ConfigLegacy) :
    ∀ cur ival, ((assignCfgMetaLegacy cur ival l).1).map (fun c => c.configIndex) =
      (List.range l.length).map (fun k => (cur + k) % 256) := by
  induction l with
  | nil => intro _ _; rfl
  | cons c rest ih =>
    intro cur ival
    simp only [assignCfgMetaLegacy, List.map_cons, List.length_cons]
    rw [ih, List.range_succ_eq_map, List.map_cons, List.map_map]
    refine congrArg₂ (· :: ·) (by omega) ?_
    have hfn : (fun k => ((cur + 1) % 256 + k) % 256) =
        ((fun k => (cur + k) % 256) ∘ Nat.succ) := by
      funext k
      simp only [Function.comp_apply]
      omega
    rw [hfn]

theorem assignCfgMetaLegacy_map_configValue (l : List ConfigLegacy) :
    ∀ cur ival, ((assignCfgMetaLegacy cur ival l).1).map (fun c => c.configValue) =
      (List.range l.length).map (fun k => (ival + k) % 256) := by
  induction l with
  | nil => intro _ _; rfl
  | cons c rest ih =>
    intro cur ival
    simp only [assignCfgMetaLegacy, List.map_cons, List.length_cons]
    rw [ih, List.range_succ_eq_map, List.map_cons, List.map_map]
    refine congrArg₂ (· :: ·) (by omega) ?_
    have hfn : (fun k => (ival + 1 + k) % 256) =
        ((fun k => (ival + k) % 256) ∘ Nat.succ) := by
      funext k
      simp only [Function.comp_apply]
      omega
    rw [hfn]

theorem assignCfgMetaLegacy_length (l : List ConfigLegacy) :
    ∀ cur ival, ((assignCfgMetaLegacy cur ival l).1).length = l.length := by
  induction l with
  | nil => intro _ _; rfl
  | cons c rest ih =>
    intro cur ival
    simp only [assignCfgMetaLegacy, List.length_cons]
    rw [ih]

theorem assignCfgMetaLegacy_map_interfaces (l : List ConfigLegacy) :
    ∀ cur ival, ((assignCfgMetaLegacy cur ival l).1).map (fun c => c.interfaces) =
      l.map (fun c => c.interfaces) := by
  induction l with
  | nil => intro _ _; rfl
  | cons c rest ih =>
    intro cur ival
    simp only [assignCfgMetaLegacy, List.map_cons]
    rw [ih]

theorem prepPhaseLegacy_fields (st : EnumStateLegacy) :
    (prepPhaseLegacy st).1.configs =
      prepTotalsLegacy 0
        (assignCfgMetaLegacy ((st.startIdx + 3) % 256) 0 st.configs).2
        (assignCfgMetaLegacy ((st.startIdx + 3) % 256) 0 st.configs).1 ∧
    (prepPhaseLegacy st).1.device =
      (((st.device.setIdx 12 st.startIdx).setIdx 13 (st.startIdx + 1)).setIdx 14
        (st.startIdx + 2)).setIdx 15 st.configs.length ∧
    (prepPhaseLegacy st).1.activeConf = none ∧
    (prepPhaseLegacy st).1.startIdx = st.startIdx := by
  unfold prepPhaseLegacy
  cases h : st.activeConf <;> simp [h]

theorem packed_quad_getD (p : List Nat) (hp : p.length = 16) (a b c d : Nat) :
    ((((p.set 12 a).set 13 b).set 14 c).set 15 d).getD 12 0 = a ∧
    ((((p.set 12 a).set 13 b).set 14 c).set 15 d).getD 13 0 = b ∧
    ((((p.set 12 a).set 13 b).set 14 c).set 15 d).getD 14 0 = c ∧
    ((((p.set 12 a).set 13 b).set 14 c).set 15 d).getD 15 0 = d := by
  have l1 : (p.set 12 a).length = 16 := by rw [List.length_set, hp]
  have l2 : ((p.set 12 a).set 13 b).length = 16 := by rw [List.length_set, l1]
  have l3 : (((p.set 12 a).set 13 b).set 14 c).length = 16 := by
    rw [List.length_set, l2]
  refine ⟨?_, ?_, ?_, ?_⟩
  · show (((((p.set 12 a).set 13 b).set 14 c).set 15 d).get? 12).getD 0 = a
    rw [List.get?_set_ne _ _ (by omega), List.get?_set_ne _ _ (by omega),
      List.get?_set_ne _ _ (by omega),
      List.get?_set_eq_of_lt _ (by omega)]
    rfl
  · show (((((p.set 12 a).set 13 b).set 14 c).set 15 d).get? 13).getD 0 = b
    rw [List.get?_set_ne _ _ (by omega), List.get?_set_ne _ _ (by omega),
      List.get?_set_eq_of_lt _ (by omega)]
    rfl
  · show (((((p.set 12 a).set 13 b).set 14 c).set 15 d).get? 14).getD 0 = c
    rw [List.get?_set_ne _ _ (by omega),
      List.get?_set_eq_of_lt _ (by omega)]
    rfl
  · show (((((p.set 12 a).set 13 b).set 14 c).set 15 d).get? 15).getD 0 = d
    rw [List.get?_set_eq_of_lt _ (by omega)]
    rfl

/-- Observable index assignments of the legacy preparation phase: the
device's three string indices and configuration count (packed bytes
12-15) and the per-configuration string indices, values and total
lengths. -/
structure AssignRecord where
  manuIdx : Nat
  prodIdx : Nat
  snIdx : Nat
  numConfigs : Nat
  configIdxs : List Nat
  configValues : List Nat
  totalLengths : List Nat
  deriving DecidableEq, Repr

def assignmentsOfLegacy (st : EnumStateLegacy) : AssignRecord :=
  { manuIdx := st.device.packed.getD 12 0,
    prodIdx := st.device.packed.getD 13 0,
    snIdx := st.device.packed.getD 14 0,
    numConfigs := st.device.packed.getD 15 0,
    configIdxs := st.configs.map (fun c => c.configIndex),
    configValues := st.configs.map (fun c => c.configValue),
    totalLengths := st.configs.map (fun c => c.totalLength) }

/-- Canonical form of the assignments the legacy preparation phase
produces: a function of the starting offset, the configuration count and
the interfaces alone. -/
theorem assignmentsOf_prepPhaseLegacy (st : EnumStateLegacy)
    (hp : st.device.packed.length = 16) :
    assignmentsOfLegacy (prepPhaseLegacy st).1 =
      { manuIdx := st.startIdx % 256,
        prodIdx := (st.startIdx + 1) % 256,
        snIdx := (st.startIdx + 2) % 256,
        numConfigs := st.configs.length % 256,
        configIdxs := (List.range st.configs.length).map
          (fun k => ((st.startIdx + 3) % 256 + k) % 256),
        configValues := (List.range st.configs.length).map (fun k => (0 + k) % 256),
        totalLengths := (st.configs.map (fun c => c.interfaces)).map
          legacyPrepTotalOf } := by
  obtain ⟨hc, hd, -, -⟩ := prepPhaseLegacy_fields st
  have hq := packed_quad_getD st.device.packed hp (st.startIdx % 256)
    ((st.startIdx + 1) % 256) ((st.startIdx + 2) % 256)
    (st.configs.length % 256)
  unfold assignmentsOfLegacy
  rw [hc, hd]
  simp only [DeviceLegacy.setIdx, AssignRecord.mk.injEq]
  refine ⟨hq.1, hq.2.1, hq.2.2.1, hq.2.2.2, ?_, ?_, ?_⟩
  · rw [prepTotalsLegacy_map_configIndex, assignCfgMetaLegacy_map_configIndex]
  · rw [prepTotalsLegacy_map_configValue, assignCfgMetaLegacy_map_configValue]
  · have hmi := congrArg (List.map legacyPrepTotalOf)
      (assignCfgMetaLegacy_map_interfaces st.configs ((st.startIdx + 3) % 256) 0)
    rw [List.map_map, List.map_map] at hmi
    rw [prepTotalsLegacy_map_totalLength, List.map_map]
    exact hmi

/-- C9: legacy `enumerate()` phase one leaves the active-configuration
pointer null (disconnecting first when one was active, so a second call
after a completed enumeration resets and disconnects), and its index
assignments are a function of the starting offset and interface set
alone — two runs from states sharing those produce identical
assignments, so nothing accumulates across calls. -/
theorem c9_theorem (st st' : EnumStateLegacy)
    (hs : st.startIdx = st'.startIdx)
    (hi : st.configs.map (fun c => c.interfaces) =
      st'.configs.map (fun c => c.interfaces))
    (hp : st.device.packed.length = 16)
    (hp' : st'.device.packed.length = 16) :
    (prepPhaseLegacy st').1.activeConf = none ∧
    (st'.activeConf ≠ none → (prepPhaseLegacy st').2 = [Event.connect false]) ∧
    assignmentsOfLegacy (prepPhaseLegacy st).1 =
      assignmentsOfLegacy (prepPhaseLegacy st').1 := by
  have hlen : st.configs.length = st'.configs.length := by
    have h := congrArg List.length hi
    simpa using h
  refine ⟨(prepPhaseLegacy_fields st').2.2.1, ?_, ?_⟩
  · intro h
    cases ha : st'.activeConf with
    | none => exact absurd ha h
    | some a => simp [prepPhaseLegacy, ha]
  · rw [assignmentsOf_prepPhaseLegacy st hp,
      assignmentsOf_prepPhaseLegacy st' hp', hs, hi, hlen]

/-- Legacy state as left by a completed first enumeration: one
configuration active. -/
def c9StateA : EnumStateLegacy :=
  { emptyStateLegacy with configs := [c2Config], activeConf := some 0 }

/-- The same core before any enumeration (nothing active, flag set). -/
def c9StateB : EnumStateLegacy :=
  { emptyStateLegacy with configs := [c2Config], hasSetupPacket := true }

/-- C9 witness: re-running phase one from the configured state resets
and disconnects, and both runs produce identical assignments. -/
theorem c9_witness :
    (prepPhaseLegacy c9StateA).1.activeConf = none ∧
    (prepPhaseLegacy c9StateA).2 = [Event.connect false] ∧
    assignmentsOfLegacy (prepPhaseLegacy c9StateB).1 =
      assignmentsOfLegacy (prepPhaseLegacy c9StateA).1 :=
  ⟨(c9_theorem c9StateB c9StateA rfl rfl (by decide) (by decide)).1,
    (c9_theorem c9StateB c9StateA rfl rfl (by decide) (by decide)).2.1
      (by decide),
    (c9_theorem c9StateB c9StateA rfl rfl (by decide) (by decide)).2.2⟩

end Claims

end LibhalUsb
